import Mathlib

/-
Verification of the migration scripts of this repository:
`fix-repositories.py`, `fix-usecases.py` and `fix-usecases-phase2.py`.

Each script reads source files under a fixed root directory, applies a fixed
ordered sequence of `re.sub` substitutions to each file's content, and
writes the file back only when the content changed.

The embedding below models
  * file contents as `List Char`,
  * Python `re` patterns as a small regex AST (`Regex`) covering exactly the
    constructs the scripts use: literal characters, single-character classes
    (`\w`, `\s`, `\d`, `[^x]`), greedy `*` and `+` over single-character
    classes, numbered groups and backreferences,
  * `re.sub` as a left-to-right scan replacing every non-overlapping
    leftmost match (`msub`), with Python's greedy backtracking order,
  * the filesystem as an explicit value (`FS`), reads and writes as
    `Except`-valued operations, and each script's `main` as a fold over the
    globbed file list.
-/

/-- File contents, pattern sources and paths are lists of characters. -/
abbrev Str := List Char

/-- The ASCII apostrophe, used to build embedded pattern literals that
contain quote characters. -/
def apos : Char := Char.ofNat 39

/-- Python's substring test `pat in s`. -/
def hasSub (pat : Str) : Str → Bool
  | [] => pat.isEmpty
  | c :: rest => pat.isPrefixOf (c :: rest) || hasSub pat rest

/-- Python's `str.replace(pat, rep)`: replace every non-overlapping
occurrence of `pat`, scanning left to right.  The fuel argument starts at
the length of the string; every step consumes at least one character, so
the fuel never runs out on the inputs `replAll` passes. -/
def replAllAux (pat rep : Str) : Nat → Str → Str
  | 0, s => s
  | _ + 1, [] => []
  | fuel + 1, c :: rest =>
    if !pat.isEmpty && pat.isPrefixOf (c :: rest) then
      rep ++ replAllAux pat rep fuel ((c :: rest).drop pat.length)
    else
      c :: replAllAux pat rep fuel rest

/-- Python's `str.replace(pat, rep)` on whole strings. -/
def replAll (pat rep s : Str) : Str :=
  replAllAux pat rep s.length s

/-- Regular expressions as used by the three scripts.  Quantifiers occur in
the scripts only over single-character classes, so `starC`/`plusC` take a
character predicate directly. -/
inductive Regex where
  | eps
  | ch (c : Char)
  | cls (p : Char → Bool)
  | starC (p : Char → Bool)
  | plusC (p : Char → Bool)
  | seq (a b : Regex)
  | group (n : Nat) (a : Regex)
  | bref (n : Nat)

/-- Captured groups: group number paired with captured text, most recent
capture first. -/
abbrev Groups := List (Nat × Str)

/-- Text captured by group `n` (Python `m.group(n)`). -/
def glook (g : Groups) (n : Nat) : Str :=
  match g.find? (fun e => e.1 == n) with
  | some e => e.2
  | none => []

/-- All ways a regex can match a prefix of `s`, as
`(consumed, remaining, groups)` triples, ordered by Python's backtracking
priority (greedy quantifiers longest first, sequential composition
left-biased).  The head of the list is the match Python's engine commits
to at this position. -/
def mrun : Regex → Str → Groups → List (Str × Str × Groups)
  | .eps, s, g => [([], s, g)]
  | .ch c, s, g =>
    match s with
    | [] => []
    | d :: rest => if d = c then [([d], rest, g)] else []
  | .cls p, s, g =>
    match s with
    | [] => []
    | d :: rest => if p d then [([d], rest, g)] else []
  | .starC p, s, g =>
    (List.range ((s.takeWhile p).length + 1)).reverse.map
      (fun k => (s.take k, s.drop k, g))
  | .plusC p, s, g =>
    (List.range (s.takeWhile p).length).reverse.map
      (fun k => (s.take (k + 1), s.drop (k + 1), g))
  | .seq a b, s, g =>
    (mrun a s g).flatMap
      (fun x => (mrun b x.2.1 x.2.2).map (fun y => (x.1 ++ y.1, y.2.1, y.2.2)))
  | .group n a, s, g =>
    (mrun a s g).map (fun x => (x.1, x.2.1, (n, x.1) :: x.2.2))
  | .bref n, s, g =>
    let v := glook g n
    if v.isPrefixOf s then [(v, s.drop v.length, g)] else []

/-- `re.sub` scan: at each position try to match; on a match, emit the
replacement and continue after the consumed text, otherwise copy one
character and move on.  Every pattern appearing in the scripts needs at
least one character to match, so the empty-match branch is never taken on
them; the fuel starts at the input length and every step consumes at least
one character. -/
def msubAux (r : Regex) (rep : Str → Groups → Str) : Nat → Str → Str
  | 0, s => s
  | _ + 1, [] => []
  | fuel + 1, c :: rest =>
    match (mrun r (c :: rest) []).head? with
    | some x =>
      if x.1.isEmpty then c :: msubAux r rep fuel rest
      else rep x.1 x.2.2 ++ msubAux r rep fuel x.2.1
    | none => c :: msubAux r rep fuel rest

/-- Python's `re.sub(r, rep, s)` for the patterns of the scripts. -/
def msub (r : Regex) (rep : Str → Groups → Str) (s : Str) : Str :=
  msubAux r rep s.length s

/-- A sequence of literal characters (a regex with every metacharacter
escaped). -/
def rstr (s : Str) : Regex :=
  s.foldr (fun c r => Regex.seq (Regex.ch c) r) Regex.eps

/-- Literal regex from a string literal. -/
def rs (s : String) : Regex := rstr s.toList

/-- Concatenation of a list of regexes. -/
def rcat (l : List Regex) : Regex := l.foldr Regex.seq Regex.eps

/-- Python `\w` on the ASCII inputs the scripts rewrite. -/
def wordChar (c : Char) : Bool := c.isAlphanum || c = Char.ofNat 95

/-- Python `\s`: space, tab, newline, carriage return, vertical tab,
form feed. -/
def spaceChar (c : Char) : Bool :=
  c = ' ' || c = Char.ofNat 9 || c = Char.ofNat 10 ||
  c = Char.ofNat 13 || c = Char.ofNat 11 || c = Char.ofNat 12

/-- Python `\d`. -/
def digitChar (c : Char) : Bool := c.isDigit

/-- A negated single-character class `[^c]`. -/
def notCh (c : Char) : Char → Bool := fun d => !(d = c)

/-
`fix-repositories.py`: the six `re.sub` rules of `fix_repository_file`,
in source order.
-/

/-- Pattern of rule 1: the literal
`import { DateTime } from `(quote)`@barbershop/domain/value-objects/datetime.vo`(quote). -/
def importDTPat : Str :=
  "import \x7b DateTime \x7d from ".toList ++ [apos] ++
    "@barbershop/domain/value-objects/datetime.vo".toList ++ [apos]

/-- Replacement of rule 1: `import { DateTime } from `(quote)`luxon`(quote). -/
def importLuxon : Str :=
  "import \x7b DateTime \x7d from ".toList ++ [apos] ++ "luxon".toList ++ [apos]

/-- Pattern of rule 2: the Specialty value-object import line, replaced by
the empty string. -/
def importSpPat : Str :=
  "import \x7b Specialty \x7d from ".toList ++ [apos] ++
    "@barbershop/domain/value-objects/specialty.vo".toList ++ [apos]

/-- `\w+Mapper\.toDomain\([^)]+\)`, shared by rules 3 and 5. -/
def toDomainCallPat : Regex :=
  rcat [Regex.plusC wordChar, rs "Mapper.toDomain(",
        Regex.plusC (notCh (Char.ofNat 41)), rs ")"]

/-- Rule 3 pattern: `(\s+)(const \w+ = )(\w+Mapper\.toDomain\([^)]+\))`. -/
def toDomainAssignPat : Regex :=
  rcat [Regex.group 1 (Regex.plusC spaceChar),
        Regex.group 2 (rcat [rs "const ", Regex.plusC wordChar, rs " = "]),
        Regex.group 3 toDomainCallPat]

/-- Rule 3 template: `\1\2\3\n\1if (\2.isFailure) return null`. -/
def toDomainAssignRep : Str → Groups → Str := fun _ g =>
  glook g 1 ++ glook g 2 ++ glook g 3 ++ "\n".toList ++ glook g 1 ++
    "if (".toList ++ glook g 2 ++ ".isFailure) return null".toList

/-- Rule 4 pattern: `(\w+)\.version`. -/
def versionPat : Regex :=
  rcat [Regex.group 1 (Regex.plusC wordChar), rs ".version"]

/-- Rule 5 pattern: `return (\w+Mapper\.toDomain\([^)]+\))`. -/
def toDomainReturnPat : Regex :=
  rcat [rs "return ", Regex.group 1 toDomainCallPat]

/-- Rule 5 template:
`const result = \1\n    return result.isSuccess ? result.value : null`. -/
def toDomainReturnRep : Str → Groups → Str := fun _ g =>
  "const result = ".toList ++ glook g 1 ++
    "\n    return result.isSuccess ? result.value : null".toList

/-- The full substitution sequence of `fix_repository_file`
(fix-repositories.py lines 20-59), applied to one file's content. -/
def fixRepoSubs (content : Str) : Str :=
  let c1 := msub (rstr importDTPat) (fun _ _ => importLuxon) content
  let c2 := msub (rstr importSpPat) (fun _ _ => []) c1
  let c3 := msub toDomainAssignPat toDomainAssignRep c2
  let c4 := msub versionPat
    (fun _ _ => "0 // version managed by repository".toList) c3
  let c5 := msub toDomainReturnPat toDomainReturnRep c4
  msub (rs ".toDate()") (fun _ _ => ".toJSDate()".toList) c5

/-
`fix-usecases.py`: the six fix functions applied by `process_file`,
in source order.
-/

/-- `fix_datetime_imports` (fix-usecases.py lines 14-22): rewrite the
DateTime value-object import to the luxon import. -/
def fix_datetime_imports (content : Str) : Str :=
  msub (rstr importDTPat) (fun _ _ => importLuxon) content

/-- One of the four patterns of `fix_id_vo_usage`: the create/isFailure/
getValue block for variable `v` created by `create`, failing with
`Result.fail<failTy>` and message `Invalid kind ID:`. -/
def idVoPat (v create kind : String) (failTy : Regex) : Regex :=
  rcat [rs ("const " ++ v ++ "OrError = " ++ create ++ "("),
        Regex.group 1 (Regex.plusC (notCh (Char.ofNat 41))),
        rs ")", Regex.starC spaceChar,
        rs ("if (" ++ v ++ "OrError.isFailure) \x7b"), Regex.starC spaceChar,
        rs ("return Result.fail<"), failTy,
        rs (">(`Invalid " ++ kind ++ " ID: $\x7b" ++ v ++ "OrError.error\x7d`)"),
        Regex.starC spaceChar, rs "\x7d", Regex.starC spaceChar,
        rs ("const " ++ v ++ " = " ++ v ++ "OrError.getValue()")]

/-- Template of the four `fix_id_vo_usage` substitutions:
`const v = Create(\1)`. -/
def idVoRep (v create : String) : Str → Groups → Str := fun _ g =>
  ("const " ++ v ++ " = " ++ create ++ "(").toList ++ glook g 1 ++ ")".toList

/-- `fix_id_vo_usage` (fix-usecases.py lines 24-58): collapse the four
Result-style ID-creation blocks to direct `create` calls. -/
def fix_id_vo_usage (content : Str) : Str :=
  let c1 := msub (idVoPat "appointmentId" "AppointmentId.create" "appointment"
      (rs "Appointment")) (idVoRep "appointmentId" "AppointmentId.create") content
  let c2 := msub (idVoPat "barberId" "BarberId.create" "barber"
      (Regex.plusC (notCh (Char.ofNat 62)))) (idVoRep "barberId" "BarberId.create") c1
  let c3 := msub (idVoPat "clientId" "ClientId.create" "client"
      (Regex.plusC (notCh (Char.ofNat 62)))) (idVoRep "clientId" "ClientId.create") c2
  msub (idVoPat "serviceId" "ServiceId.create" "service"
      (Regex.plusC (notCh (Char.ofNat 62)))) (idVoRep "serviceId" "ServiceId.create") c3

/-- `fix_entity_apis` (fix-usecases.py lines 60-75): four literal
substitutions on entity member accesses. -/
def fix_entity_apis (content : Str) : Str :=
  let c1 := msub (rs "barber.isActive")
    (fun _ _ => "barber.status.isActive()".toList) content
  let c2 := msub (rs "client.isActive")
    (fun _ _ => "client.status.isActive()".toList) c1
  let c3 := msub (rs "appointment.status.value")
    (fun _ _ => "appointment.status".toList) c2
  msub (rs "apt.status.value") (fun _ _ => "apt.status".toList) c3

/-- `DateTime\.create\(([^)]+)\)` of `fix_datetime_methods`. -/
def dtCreatePat : Regex :=
  rcat [rs "DateTime.create(",
        Regex.group 1 (Regex.plusC (notCh (Char.ofNat 41))), rs ")"]

/-- `fix_datetime_methods` (fix-usecases.py lines 77-91):
`.toDate()` to `.toJSDate()` and `DateTime.create` to
`DateTime.fromJSDate`. -/
def fix_datetime_methods (content : Str) : Str :=
  let c1 := msub (rs ".toDate()") (fun _ _ => ".toJSDate()".toList) content
  msub dtCreatePat
    (fun _ g => "DateTime.fromJSDate(".toList ++ glook g 1 ++ ")".toList) c1

/-- First pattern of `fix_timeslot_create`:
`TimeSlot\.create\(\{\s*startTime,\s*endTime\s*\}\)`. -/
def timeslotShortPat : Regex :=
  rcat [rs "TimeSlot.create(\x7b", Regex.starC spaceChar, rs "startTime,",
        Regex.starC spaceChar, rs "endTime", Regex.starC spaceChar, rs "\x7d)"]

/-- Second pattern of `fix_timeslot_create`:
`TimeSlot\.create\(\{\s*startTime:\s*([^,]+),\s*endTime:\s*([^}]+)\s*\}\)`. -/
def timeslotNamedPat : Regex :=
  rcat [rs "TimeSlot.create(\x7b", Regex.starC spaceChar, rs "startTime:",
        Regex.starC spaceChar, Regex.group 1 (Regex.plusC (notCh (Char.ofNat 44))),
        rs ",", Regex.starC spaceChar, rs "endTime:", Regex.starC spaceChar,
        Regex.group 2 (Regex.plusC (notCh (Char.ofNat 125))),
        Regex.starC spaceChar, rs "\x7d)"]

/-- `fix_timeslot_create` (fix-usecases.py lines 93-107). -/
def fix_timeslot_create (content : Str) : Str :=
  let c1 := msub timeslotShortPat
    (fun _ _ => "TimeSlot.create(startTime, endTime)".toList) content
  msub timeslotNamedPat
    (fun _ g => "TimeSlot.create(".toList ++ glook g 1 ++ ", ".toList ++
      glook g 2 ++ ")".toList) c1

/-- `fix_result_getvalue` (fix-usecases.py lines 109-112):
`.getValue()` to `.value`. -/
def fix_result_getvalue (content : Str) : Str :=
  msub (rs ".getValue()") (fun _ _ => ".value".toList) content

/-
`fix-usecases-phase2.py`: the eight fix functions applied by its
`process_file`, in source order.
-/

/-- First pattern of `fix_datetime_validation`:
`const (\w+)OrError = DateTime\.fromJSDate\(([^)]+)\)\s*if \(\1OrError\.isFailure\) \{([^}]+)\}\s*const \1 = \1OrError\.value`. -/
def dtValidationPat : Regex :=
  rcat [rs "const ", Regex.group 1 (Regex.plusC wordChar),
        rs "OrError = DateTime.fromJSDate(",
        Regex.group 2 (Regex.plusC (notCh (Char.ofNat 41))),
        rs ")", Regex.starC spaceChar,
        rs "if (", Regex.bref 1, rs "OrError.isFailure) \x7b",
        Regex.group 3 (Regex.plusC (notCh (Char.ofNat 125))),
        rs "\x7d", Regex.starC spaceChar,
        rs "const ", Regex.bref 1, rs " = ", Regex.bref 1, rs "OrError.value"]

/-- Second pattern of `fix_datetime_validation`:
`DateTime\.fromJSDate\([^)]+\)\.value`, replaced by the match with
`.value` removed (`m.group(0).replace`). -/
def dtFromJSDateValuePat : Regex :=
  rcat [rs "DateTime.fromJSDate(", Regex.plusC (notCh (Char.ofNat 41)),
        rs ").value"]

/-- `fix_datetime_validation` (fix-usecases-phase2.py lines 11-26). -/
def fix_datetime_validation (content : Str) : Str :=
  let c1 := msub dtValidationPat
    (fun _ g => "const ".toList ++ glook g 1 ++ " = DateTime.fromJSDate(".toList ++
      glook g 2 ++ ")".toList) content
  msub dtFromJSDateValuePat (fun m _ => replAll ".value".toList [] m) c1

/-- First pattern of `fix_barber_specialties`:
`barber\.specialties\.some\(specialty => specialty\.value === (\w+)\)`. -/
def specialtiesSomePat : Regex :=
  rcat [rs "barber.specialties.some(specialty => specialty.value === ",
        Regex.group 1 (Regex.plusC wordChar), rs ")"]

/-- Second pattern of `fix_barber_specialties`:
`service\.requiredSkills\.every\(skill =>\s*barber\.specialties\.specialties\.includes\(skill\)\)`,
whose replacement `lambda m: m.group(0)` returns the match itself. -/
def requiredSkillsEveryPat : Regex :=
  rcat [rs "service.requiredSkills.every(skill =>", Regex.starC spaceChar,
        rs "barber.specialties.specialties.includes(skill))"]

/-- Replacement of the second `fix_barber_specialties` substitution:
`lambda m: m.group(0)`. -/
def matchItselfRep : Str → Groups → Str := fun m _ => m

/-- `fix_barber_specialties` (fix-usecases-phase2.py lines 28-45). -/
def fix_barber_specialties (content : Str) : Str :=
  let c1 := msub specialtiesSomePat
    (fun _ g => "barber.specialties.specialties.includes(".toList ++
      glook g 1 ++ ")".toList) content
  msub requiredSkillsEveryPat matchItselfRep c1

/-- `fix_barber_is_available_at` (fix-usecases-phase2.py lines 47-55):
`barber\.isAvailableAt\((\w+)\)` to `barber.isAvailable()`. -/
def fix_barber_is_available_at (content : Str) : Str :=
  msub (rcat [rs "barber.isAvailableAt(", Regex.group 1 (Regex.plusC wordChar),
    rs ")"]) (fun _ _ => "barber.isAvailable()".toList) content

/-- `PaymentInfo\.create\(\{[^}]+\}\)` of `fix_payment_info_create`. -/
def paymentCreatePat : Regex :=
  rcat [rs "PaymentInfo.create(\x7b", Regex.plusC (notCh (Char.ofNat 125)),
        rs "\x7d)"]

/-- `(import \{ PaymentInfo \})` of `fix_payment_info_create`. -/
def paymentImportPat : Regex :=
  Regex.group 1 (rs "import \x7b PaymentInfo \x7d")

/-- The first substitution of `fix_payment_info_create`:
`PaymentInfo.create({...})` to `PaymentInfo.pending(service.price)`. -/
def paymentCreateSub (content : Str) : Str :=
  msub paymentCreatePat
    (fun _ _ => "PaymentInfo.pending(service.price)".toList) content

/-- The replacement of the guarded import substitution:
`import { PaymentInfo, PaymentMethod }`. -/
def paymentImportNew : Str :=
  "import \x7b PaymentInfo, PaymentMethod \x7d".toList

/-- `fix_payment_info_create` (fix-usecases-phase2.py lines 57-77): rewrite
`PaymentInfo.create({...})` to `PaymentInfo.pending(service.price)`; then,
guarded by the Python test `PaymentInfo in content and PaymentMethod not
in content` evaluated on the content at this point, extend the PaymentInfo import. -/
def fix_payment_info_create (content : Str) : Str :=
  let c1 := paymentCreateSub content
  if hasSub "PaymentInfo".toList c1 && !hasSub "PaymentMethod".toList c1 then
    msub paymentImportPat (fun _ _ => paymentImportNew) c1
  else
    c1

/-- First pattern of `fix_barber_client_metrics`:
`\s*// \d+\. Update barber metrics\s*barber\.recordCompletedAppointment\(\)\s*`. -/
def barberMetricsPat : Regex :=
  rcat [Regex.starC spaceChar, rs "// ", Regex.plusC digitChar,
        rs ". Update barber metrics", Regex.starC spaceChar,
        rs "barber.recordCompletedAppointment()", Regex.starC spaceChar]

/-- `fix_barber_client_metrics` (fix-usecases-phase2.py lines 79-98). -/
def fix_barber_client_metrics (content : Str) : Str :=
  let c1 := msub barberMetricsPat
    (fun _ _ =>
      "\n    // Note: Barber metrics are updated through domain events\n".toList)
    content
  msub (rs "client.recordCompletedAppointment()")
    (fun _ _ =>
      "// TODO: client.recordAppointmentCompleted(service.price, new Date())".toList)
    c1

/-- Replacement of the first `fix_optional_string_args` substitution:
`.cancel(dto.reason || `(quote)`No reason provided`(quote)`)`. -/
def cancelReasonRep : Str :=
  ".cancel(dto.reason || ".toList ++ [apos] ++ "No reason provided".toList ++
    [apos] ++ ")".toList

/-- `fix_optional_string_args` (fix-usecases-phase2.py lines 100-120): the
second substitution replaces `.complete(dto.notes)` by the identical
literal `.complete(dto.notes)`. -/
def fix_optional_string_args (content : Str) : Str :=
  let c1 := msub (rs ".cancel(dto.reason)") (fun _ _ => cancelReasonRep) content
  msub (rs ".complete(dto.notes)")
    (fun _ _ => ".complete(dto.notes)".toList) c1

/-- Pattern of `fix_appointment_add_notes`. -/
def addNotesPat : Regex :=
  rcat [Regex.starC spaceChar, rs "// Add optional reason as notes if provided",
        Regex.starC spaceChar, rs "if (dto.reason) \x7b", Regex.starC spaceChar,
        rs "appointment.addNotes(`No-show reason: $\x7bdto.reason\x7d`)",
        Regex.starC spaceChar, rs "\x7d"]

/-- `fix_appointment_add_notes` (fix-usecases-phase2.py lines 122-132). -/
def fix_appointment_add_notes (content : Str) : Str :=
  msub addNotesPat
    (fun _ _ =>
      "\n    // Note: Reason handling would need to be added to Appointment entity".toList)
    content

/-- `fix_barber_schedule_iteration` (fix-usecases-phase2.py lines 134-139):
the function body only returns `content` unchanged. -/
def fix_barber_schedule_iteration (content : Str) : Str :=
  content

/-
Filesystem model and the per-file / whole-run control flow of the three
scripts.  Reads and writes are `Except`-valued: an `.error` models a raised
OSError.  `fs.readFails`/`fs.writeFails` are the paths whose read/write
raises.
-/

/-- One file on disk. -/
structure FSEntry where
  dir : String
  name : String
  content : Str
deriving DecidableEq

/-- The filesystem as a value: existing directories, files, and the paths
whose read or write raises. -/
structure FS where
  dirs : List String
  files : List FSEntry
  readFails : List String
  writeFails : List String
deriving DecidableEq

/-- Full path of an entry. -/
def epath (e : FSEntry) : String := e.dir ++ "/" ++ e.name

/-- `open(p).read()`: raises when the path is unreadable or absent. -/
def readFile (fs : FS) (p : String) : Except String Str :=
  if p ∈ fs.readFails then .error ("read error: " ++ p)
  else
    match fs.files.find? (fun e => epath e == p) with
    | some e => .ok e.content
    | none => .error ("not found: " ++ p)

/-- `open(p, w).write(c)`: raises when the path is unwritable, otherwise
replaces the content at `p`. -/
def writeFile (fs : FS) (p : String) (c : Str) : Except String FS :=
  if p ∈ fs.writeFails then .error ("write error: " ++ p)
  else .ok { fs with
    files := fs.files.map (fun e => if epath e = p then { e with content := c } else e) }

/-- The root directory hard-coded in fix-repositories.py line 71. -/
def repoDir : String :=
  "/Users/federiconicolascarrizo/Documents/Repositorios/barberia/packages/infrastructure/src/repositories"

/-- The root directory hard-coded in fix-usecases.py line 12 and
fix-usecases-phase2.py line 9. -/
def useCasesDir : String :=
  "/Users/federiconicolascarrizo/Documents/Repositorios/barberia/packages/application/src/use-cases"

/-- The name filter of `repo_dir.glob` with pattern `prisma-*.repository.ts`. -/
def repoGlobMatch (n : String) : Bool :=
  "prisma-".toList.isPrefixOf n.toList && ".repository.ts".toList.isSuffixOf n.toList

/-- Whether directory `d` lies under `root` (as `**/` enumerates). -/
def dirUnder (root d : String) : Bool :=
  d == root || (root ++ "/").toList.isPrefixOf d.toList

/-- The name filter of `BASE_DIR.glob` with pattern `**/*.use-case.ts`. -/
def ucGlobMatch (n : String) : Bool := ".use-case.ts".toList.isSuffixOf n.toList

/-- `list(repo_dir.glob(...))` with pattern `prisma-*.repository.ts`: the
paths in the walker's enumeration order (the order of `fs.files`; `glob`
guarantees no particular order). -/
def repoGlob (fs : FS) : List String :=
  (fs.files.filter (fun e => e.dir == repoDir && repoGlobMatch e.name)).map epath

/-- `list(BASE_DIR.glob(...))` with pattern `**/*.use-case.ts`, in enumeration order. -/
def ucGlob (fs : FS) : List String :=
  (fs.files.filter (fun e => dirUnder useCasesDir e.dir && ucGlobMatch e.name)).map epath

/-- Lexicographic comparison of character lists by code point: Python's
`<=` on `str`, which `sorted` uses to compare paths. -/
def strLeb : Str → Str → Bool
  | [], _ => true
  | _ :: _, [] => false
  | a :: as, b :: bs =>
    if a.toNat = b.toNat then strLeb as bs else decide (a.toNat < b.toNat)

/-- The lexicographic order on path strings. -/
def pathLe (a b : String) : Prop := strLeb a.data b.data = true

instance : DecidableRel pathLe := fun a b => by
  unfold pathLe; infer_instance

/-- Python `sorted` on paths: the stable sort by the lexicographic order
on the path string.  A stable sort's output is uniquely determined by the
order and the input, so insertion sort (which the kernel can evaluate)
produces exactly the list Python's stable `sorted` returns. -/
def sortedPaths (l : List String) : List String :=
  l.insertionSort pathLe

/-- Outcome of `process_file` on one file: final filesystem, return value,
recorded error (the per-file error print), and the number of write
operations performed. -/
structure FileResult where
  fs : FS
  changed : Bool
  err : Option String
  writes : Nat
deriving DecidableEq

/-- Sequential application of the fix functions, stopping at the first
raised exception. -/
def applyFixes : List (Str → Except String Str) → Str → Except String Str
  | [], c => .ok c
  | f :: rest, c =>
    match f c with
    | .ok c2 => applyFixes rest c2
    | .error e => .error e

/-- The body of `process_file` (the code inside its `try`): read the file,
apply every fix to the cumulative content, and write back only when the
final content differs from the original. -/
def processFileBody (fixes : List (Str → Except String Str)) (fs : FS)
    (p : String) : Except String (FS × Bool × Nat) :=
  match readFile fs p with
  | .error e => .error e
  | .ok content =>
    match applyFixes fixes content with
    | .error e => .error e
    | .ok c2 =>
      if c2 = content then .ok (fs, false, 0)
      else
        match writeFile fs p c2 with
        | .error e => .error e
        | .ok fs2 => .ok (fs2, true, 1)

/-- `process_file` of fix-usecases.py lines 114-144 and
fix-usecases-phase2.py lines 141-172: the body wrapped in
`try/except`, which records the exception and returns `False`. -/
def processFileWith (fixes : List (Str → Except String Str)) (fs : FS)
    (p : String) : FileResult :=
  match processFileBody fixes fs p with
  | .ok (fs2, b, w) => ⟨fs2, b, none, w⟩
  | .error e => ⟨fs, false, some e, 0⟩

/-- The fix list of fix-usecases.py `process_file`, in source order. -/
def usecasesFixes : List (Str → Except String Str) :=
  [fun c => .ok (fix_datetime_imports c), fun c => .ok (fix_id_vo_usage c),
   fun c => .ok (fix_entity_apis c), fun c => .ok (fix_datetime_methods c),
   fun c => .ok (fix_timeslot_create c), fun c => .ok (fix_result_getvalue c)]

/-- The fix list of fix-usecases-phase2.py `process_file`, in source
order. -/
def phase2Fixes : List (Str → Except String Str) :=
  [fun c => .ok (fix_datetime_validation c), fun c => .ok (fix_barber_specialties c),
   fun c => .ok (fix_barber_is_available_at c), fun c => .ok (fix_payment_info_create c),
   fun c => .ok (fix_barber_client_metrics c), fun c => .ok (fix_optional_string_args c),
   fun c => .ok (fix_appointment_add_notes c), fun c => .ok (fix_barber_schedule_iteration c)]

/-- The pure content transformation of fix-usecases.py: the six fixes
composed in declared order, each on the output of the previous one. -/
def usecasesSubs (c : Str) : Str :=
  fix_result_getvalue (fix_timeslot_create (fix_datetime_methods
    (fix_entity_apis (fix_id_vo_usage (fix_datetime_imports c)))))

/-- The pure content transformation of fix-usecases-phase2.py: the eight
fixes composed in declared order. -/
def phase2Subs (c : Str) : Str :=
  fix_barber_schedule_iteration (fix_appointment_add_notes
    (fix_optional_string_args (fix_barber_client_metrics
      (fix_payment_info_create (fix_barber_is_available_at
        (fix_barber_specialties (fix_datetime_validation c)))))))

/-- `process_file` of fix-usecases.py. -/
def usecasesProcessFile : FS → String → FileResult :=
  processFileWith usecasesFixes

/-- `process_file` of fix-usecases-phase2.py. -/
def phase2ProcessFile : FS → String → FileResult :=
  processFileWith phase2Fixes

/-- The per-file loop shared by the `main` of fix-usecases.py and
fix-usecases-phase2.py: process every file in order, counting the files
whose `process_file` returned `True` and recording each file's outcome. -/
def runFiles (fixes : List (Str → Except String Str)) :
    FS → List String → FS × Nat × List (String × Bool × Option String)
  | fs, [] => (fs, 0, [])
  | fs, p :: ps =>
    let r := processFileWith fixes fs p
    let out := runFiles fixes r.fs ps
    (out.1, (if r.changed then 1 else 0) + out.2.1, (p, r.changed, r.err) :: out.2.2)

/-- The run summary printed by fix-usecases.py / fix-usecases-phase2.py:
`scanned` (`Archivos encontrados`), `corrected`
(`Archivos corregidos: corrected/scanned`), plus the per-file progress
lines. -/
structure UcReport where
  scanned : Nat
  corrected : Nat
  results : List (String × Bool × Option String)
deriving DecidableEq

/-- `main` of fix-usecases.py lines 146-164: glob, sort, process each file,
report. The root directory is never checked for existence; a missing root
just yields an empty glob. -/
def usecasesMain (fs : FS) : FS × UcReport :=
  let files := ucGlob fs
  let out := runFiles usecasesFixes fs (sortedPaths files)
  (out.1, ⟨files.length, out.2.1, out.2.2⟩)

/-- `main` of fix-usecases-phase2.py lines 174-189. -/
def phase2Main (fs : FS) : FS × UcReport :=
  let files := ucGlob fs
  let out := runFiles phase2Fixes fs (sortedPaths files)
  (out.1, ⟨files.length, out.2.1, out.2.2⟩)

/-- `fix_repository_file` of fix-repositories.py lines 10-68: no
`try/except` — read, transform, and write errors propagate to the
caller. -/
def fix_repository_file (fs : FS) (p : String) : Except String (FS × Bool) :=
  match readFile fs p with
  | .error e => .error e
  | .ok content =>
    let c2 := fixRepoSubs content
    if c2 = content then .ok (fs, false)
    else
      match writeFile fs p c2 with
      | .error e => .error e
      | .ok fs2 => .ok (fs2, true)

/-- Outcome of a fix-repositories.py run that did not die on an uncaught
exception: either the early return on a missing root (after printing
`ERROR: Directory not found`), or a completed run with the found/fixed
counts and the visited files. -/
inductive RepoOutcome where
  | missingRoot
  | completed (found : Nat) (fixedCount : Nat) (visited : List String)
deriving DecidableEq

/-- The file loop of fix-repositories.py `main` lines 81-84: an exception
from `fix_repository_file` propagates and aborts the whole loop. -/
def repoLoop : FS → List String → Except String (FS × Nat × List String)
  | fs, [] => .ok (fs, 0, [])
  | fs, p :: ps =>
    match fix_repository_file fs p with
    | .error e => .error e
    | .ok (fs2, b) =>
      match repoLoop fs2 ps with
      | .error e => .error e
      | .ok (fs3, n, vs) => .ok (fs3, (if b then 1 else 0) + n, p :: vs)

/-- `main` of fix-repositories.py lines 70-86: check the root exists
(returning early otherwise), glob without sorting, process each file. -/
def fixRepositoriesMain (fs : FS) : Except String (FS × RepoOutcome) :=
  if repoDir ∈ fs.dirs then
    let files := repoGlob fs
    match repoLoop fs files with
    | .error e => .error e
    | .ok (fs2, n, vs) => .ok (fs2, .completed files.length n vs)
  else .ok (fs, .missingRoot)

/-
General lemmas about the substitution engine.
-/

/-- Any result of `mrun` splits the input into consumed text and
remainder. -/
theorem mrun_append : ∀ (r : Regex) (s : Str) (g : Groups) (x : Str × Str × Groups),
    x ∈ mrun r s g → x.1 ++ x.2.1 = s := by
  intro r
  induction r with
  | eps =>
    intro s g x hx
    simp only [mrun, List.mem_singleton] at hx
    subst hx; simp
  | ch c =>
    intro s g x hx
    cases s with
    | nil => simp [mrun] at hx
    | cons d rest =>
      simp only [mrun] at hx
      split at hx
      · simp only [List.mem_singleton] at hx; subst hx; simp
      · simp at hx
  | cls p =>
    intro s g x hx
    cases s with
    | nil => simp [mrun] at hx
    | cons d rest =>
      simp only [mrun] at hx
      split at hx
      · simp only [List.mem_singleton] at hx; subst hx; simp
      · simp at hx
  | starC p =>
    intro s g x hx
    simp only [mrun, List.mem_map, List.mem_reverse, List.mem_range] at hx
    obtain ⟨k, _, hk⟩ := hx
    subst hk; simp
  | plusC p =>
    intro s g x hx
    simp only [mrun, List.mem_map, List.mem_reverse, List.mem_range] at hx
    obtain ⟨k, _, hk⟩ := hx
    subst hk; simp
  | seq a b iha ihb =>
    intro s g x hx
    simp only [mrun, List.mem_flatMap, List.mem_map] at hx
    obtain ⟨y, hy, z, hz, hzx⟩ := hx
    subst hzx
    have h1 := iha s g y hy
    have h2 := ihb y.2.1 y.2.2 z hz
    simp only [List.append_assoc]
    rw [h2, h1]
  | group n a iha =>
    intro s g x hx
    simp only [mrun, List.mem_map] at hx
    obtain ⟨y, hy, hyx⟩ := hx
    subst hyx
    exact iha s g y hy
  | bref n =>
    intro s g x hx
    simp only [mrun] at hx
    split at hx
    · simp only [List.mem_singleton] at hx
      subst hx
      rename_i h
      obtain ⟨t, ht⟩ := List.isPrefixOf_iff_prefix.mp h
      simp only
      rw [← ht, List.drop_left]
    · simp at hx

/-- When every replacement returns exactly the matched text, the scan
reassembles the input unchanged. -/
theorem msubAux_self (r : Regex) (rep : Str → Groups → Str)
    (hrep : ∀ (s : Str) (x : Str × Str × Groups), x ∈ mrun r s [] → rep x.1 x.2.2 = x.1) :
    ∀ (fuel : Nat) (s : Str), s.length ≤ fuel → msubAux r rep fuel s = s := by
  intro fuel
  induction fuel with
  | zero => intro s _; rfl
  | succ n ih =>
    intro s hs
    cases s with
    | nil => rfl
    | cons c rest =>
      simp only [msubAux]
      cases hh : (mrun r (c :: rest) []).head? with
      | none =>
        simp only []
        rw [ih rest (Nat.le_of_succ_le_succ hs)]
      | some x =>
        have hmem : x ∈ mrun r (c :: rest) [] :=
          List.mem_of_mem_head? (by rw [hh]; exact Option.mem_some_self x)
        have hx := mrun_append r (c :: rest) [] x hmem
        cases hcc : x.1 with
        | nil =>
          have hte : x.1.isEmpty = true := by simp [hcc]
          simp only [hte, if_true]
          rw [ih rest (Nat.le_of_succ_le_succ hs)]
        | cons a as =>
          have hfe : x.1.isEmpty = false := by simp [hcc]
          have h1 : x.1.length + x.2.1.length = rest.length + 1 := by
            have := congrArg List.length hx
            simpa using this
          have hlen : x.2.1.length ≤ n := by
            have hs2 : rest.length + 1 ≤ n + 1 := by simpa using hs
            have h2 : 1 ≤ x.1.length := by simp [hcc]
            omega
          simp only [hfe, Bool.false_eq_true, if_false]
          rw [hrep (c :: rest) x hmem, ih x.2.1 hlen, hx]

/-- `re.sub` with a replacement that always returns the matched text is the
identity. -/
theorem msub_self (r : Regex) (rep : Str → Groups → Str)
    (hrep : ∀ (s : Str) (x : Str × Str × Groups), x ∈ mrun r s [] → rep x.1 x.2.2 = x.1)
    (s : Str) : msub r rep s = s :=
  msubAux_self r rep hrep s.length s (Nat.le_refl _)

/-- A fully-literal pattern only ever matches the literal itself. -/
theorem mrun_rstr : ∀ (l s : Str) (g : Groups) (x : Str × Str × Groups),
    x ∈ mrun (rstr l) s g → x.1 = l := by
  intro l
  induction l with
  | nil =>
    intro s g x hx
    simp only [rstr, List.foldr_nil, mrun, List.mem_singleton] at hx
    subst hx; rfl
  | cons c cs ih =>
    intro s g x hx
    simp only [rstr, List.foldr_cons] at hx
    simp only [mrun, List.mem_flatMap, List.mem_map] at hx
    obtain ⟨y, hy, z, hz, hzx⟩ := hx
    subst hzx
    have hz2 : z.1 = cs := ih y.2.1 y.2.2 z hz
    cases s with
    | nil => simp [mrun] at hy
    | cons d rest =>
      simp only [mrun] at hy
      split at hy
      · simp only [List.mem_singleton] at hy
        subst hy
        rename_i h
        simp [hz2, h]
      · simp at hy

/-- Replacing a literal pattern by the identical literal is the
identity. -/
theorem msub_literal_self (l : Str) (s : Str) :
    msub (rstr l) (fun _ _ => l) s = s :=
  msub_self (rstr l) (fun _ _ => l)
    (fun s x hx => (mrun_rstr l s [] x hx).symm) s

/-
Lemmas about the run loops.
-/

/-- The per-file loop records an outcome for every file, in processing
order, regardless of per-file errors. -/
theorem runFiles_map_fst (fixes : List (Str → Except String Str)) :
    ∀ (fs : FS) (ps : List String),
      (runFiles fixes fs ps).2.2.map (fun t => t.1) = ps := by
  intro fs ps
  induction ps generalizing fs with
  | nil => rfl
  | cons p rest ih => simp [runFiles, ih]

/-- The corrected counter equals the number of files whose `process_file`
returned `True`. -/
theorem runFiles_corrected (fixes : List (Str → Except String Str)) :
    ∀ (fs : FS) (ps : List String),
      (runFiles fixes fs ps).2.1 =
        ((runFiles fixes fs ps).2.2.filter (fun t => t.2.1)).length := by
  intro fs ps
  induction ps generalizing fs with
  | nil => rfl
  | cons p rest ih =>
    simp only [runFiles]
    cases hb : (processFileWith fixes fs p).changed <;>
      simp [List.filter_cons, hb, ih, Nat.add_comm]

/-- The lexicographic comparison is total. -/
theorem strLeb_total : ∀ a b : Str, strLeb a b = true ∨ strLeb b a = true := by
  intro a
  induction a with
  | nil => intro b; left; rfl
  | cons x xs ih =>
    intro b
    cases b with
    | nil => right; rfl
    | cons y ys =>
      by_cases hxy : x.toNat = y.toNat
      · simp only [strLeb]
        rw [if_pos hxy, if_pos hxy.symm]
        exact ih ys
      · have hyx : ¬ y.toNat = x.toNat := fun h => hxy h.symm
        simp only [strLeb, hxy, hyx, if_false]
        rcases Nat.lt_or_ge x.toNat y.toNat with h | h
        · left; simpa using h
        · right
          have hlt : y.toNat < x.toNat := Nat.lt_of_le_of_ne h hyx
          simpa using hlt

/-- The lexicographic comparison is transitive. -/
theorem strLeb_trans : ∀ a b c : Str, strLeb a b = true → strLeb b c = true →
    strLeb a c = true := by
  intro a
  induction a with
  | nil => intro b c _ _; rfl
  | cons x xs ih =>
    intro b c h1 h2
    cases b with
    | nil => simp [strLeb] at h1
    | cons y ys =>
      cases c with
      | nil => simp [strLeb] at h2
      | cons z zs =>
        simp only [strLeb] at h1 h2 ⊢
        by_cases hxy : x.toNat = y.toNat
        · by_cases hyz : y.toNat = z.toNat
          · have hxz : x.toNat = z.toNat := hxy.trans hyz
            simp only [hxy, hyz, if_true] at h1 h2
            simp only [hxz, if_true]
            exact ih ys zs h1 h2
          · have hxz : ¬ x.toNat = z.toNat := fun h => hyz (hxy.symm.trans h)
            simp only [hxy, if_true] at h1
            simp only [hyz, if_false] at h2
            simp only [hxz, if_false]
            rw [hxy]
            exact h2
        · by_cases hyz : y.toNat = z.toNat
          · have hxz : ¬ x.toNat = z.toNat := fun h => hxy (h.trans hyz.symm)
            simp only [hxy, if_false] at h1
            simp only [hxz, if_false]
            rw [← hyz]
            exact h1
          · simp only [hxy, if_false] at h1
            simp only [hyz, if_false] at h2
            have hlt : x.toNat < z.toNat :=
              Nat.lt_trans (by simpa using h1) (by simpa using h2)
            have hxz : ¬ x.toNat = z.toNat := Nat.ne_of_lt hlt
            simp only [hxz, if_false]
            simpa using hlt

instance : IsTotal String pathLe :=
  ⟨fun a b => strLeb_total a.data b.data⟩

instance : IsTrans String pathLe :=
  ⟨fun a b c => strLeb_trans a.data b.data c.data⟩

/-- Python `sorted` produces a lexicographically sorted list. -/
theorem sortedPaths_sorted (l : List String) : (sortedPaths l).Sorted pathLe :=
  List.sorted_insertionSort pathLe l

/-- Python `sorted` permutes its input. -/
theorem sortedPaths_perm (l : List String) : (sortedPaths l).Perm l :=
  List.perm_insertionSort pathLe l

/-- A raised read exception is caught: `process_file` records it and leaves
the filesystem untouched. -/
theorem processFileWith_read_error (fixes : List (Str → Except String Str))
    (fs : FS) (p : String) (e : String) (h : readFile fs p = .error e) :
    processFileWith fixes fs p = ⟨fs, false, some e, 0⟩ := by
  simp [processFileWith, processFileBody, h]

/-- A fix function raising is caught: `process_file` records the error,
performs no write, and leaves the filesystem untouched. -/
theorem processFileWith_fix_error (fixes : List (Str → Except String Str))
    (fs : FS) (p : String) (c : Str) (e : String)
    (hr : readFile fs p = .ok c) (hf : applyFixes fixes c = .error e) :
    processFileWith fixes fs p = ⟨fs, false, some e, 0⟩ := by
  simp [processFileWith, processFileBody, hr, hf]

/-- When the transformed content equals the original, no write happens. -/
theorem processFileWith_unchanged (fixes : List (Str → Except String Str))
    (fs : FS) (p : String) (c : Str)
    (hr : readFile fs p = .ok c) (hf : applyFixes fixes c = .ok c) :
    processFileWith fixes fs p = ⟨fs, false, none, 0⟩ := by
  simp [processFileWith, processFileBody, hr, hf]

/-- A raised write exception is caught and the filesystem keeps its
pre-run state (the model treats a write as atomic). -/
theorem processFileWith_write_error (fixes : List (Str → Except String Str))
    (fs : FS) (p : String) (c c2 : Str) (e : String)
    (hr : readFile fs p = .ok c) (hf : applyFixes fixes c = .ok c2)
    (hc : c2 ≠ c) (hw : writeFile fs p c2 = .error e) :
    processFileWith fixes fs p = ⟨fs, false, some e, 0⟩ := by
  simp [processFileWith, processFileBody, hr, hf, hc, hw]

/-- The successful write path: exactly one write, no error recorded. -/
theorem processFileWith_written (fixes : List (Str → Except String Str))
    (fs : FS) (p : String) (c c2 : Str) (fs2 : FS)
    (hr : readFile fs p = .ok c) (hf : applyFixes fixes c = .ok c2)
    (hc : c2 ≠ c) (hw : writeFile fs p c2 = .ok fs2) :
    processFileWith fixes fs p = ⟨fs2, true, none, 1⟩ := by
  simp [processFileWith, processFileBody, hr, hf, hc, hw]

/-- `process_file` writes a file at most once per run. -/
theorem processFileWith_writes_le_one (fixes : List (Str → Except String Str))
    (fs : FS) (p : String) : (processFileWith fixes fs p).writes ≤ 1 := by
  cases hr : readFile fs p with
  | error e => simp [processFileWith_read_error fixes fs p e hr]
  | ok c =>
    cases hf : applyFixes fixes c with
    | error e => simp [processFileWith_fix_error fixes fs p c e hr hf]
    | ok c2 =>
      by_cases hc : c2 = c
      · subst hc; simp [processFileWith_unchanged fixes fs p c2 hr hf]
      · cases hw : writeFile fs p c2 with
        | error e => simp [processFileWith_write_error fixes fs p c c2 e hr hf hc hw]
        | ok fs2 => simp [processFileWith_written fixes fs p c c2 fs2 hr hf hc hw]

/-- A write happens only when the read and every fix succeeded and the
content changed. -/
theorem processFileWith_writes_one (fixes : List (Str → Except String Str))
    (fs : FS) (p : String) (h : (processFileWith fixes fs p).writes = 1) :
    ∃ c c2, readFile fs p = .ok c ∧ applyFixes fixes c = .ok c2 ∧ c2 ≠ c ∧
      (processFileWith fixes fs p).err = none := by
  revert h
  cases hr : readFile fs p with
  | error e => simp [processFileWith_read_error fixes fs p e hr]
  | ok c =>
    cases hf : applyFixes fixes c with
    | error e => simp [processFileWith_fix_error fixes fs p c e hr hf]
    | ok c2 =>
      by_cases hc : c2 = c
      · subst hc; simp [processFileWith_unchanged fixes fs p c2 hr hf]
      · cases hw : writeFile fs p c2 with
        | error e => simp [processFileWith_write_error fixes fs p c c2 e hr hf hc hw]
        | ok fs2 =>
          intro _
          exact ⟨c, c2, rfl, hf, hc,
            by simp [processFileWith_written fixes fs p c c2 fs2 hr hf hc hw]⟩

set_option maxRecDepth 100000

/-
Concrete fixtures used by the claim theorems and witnesses.
-/

/-- Path of the use-case fixture file. -/
def uPath : String := useCasesDir ++ "/a.use-case.ts"

/-- Paths of the repository fixture files. -/
def rPathA : String := repoDir ++ "/prisma-a.repository.ts"

/-- Second repository fixture path. -/
def rPathB : String := repoDir ++ "/prisma-b.repository.ts"

/-- A tree whose only use-case file is unreadable. -/
def fsErrU : FS :=
  ⟨[useCasesDir], [⟨useCasesDir, "a.use-case.ts", "x".toList⟩], [uPath], []⟩

/-- A tree whose files contain none of the configured patterns. -/
def fsNoop : FS :=
  ⟨[useCasesDir, repoDir],
   [⟨useCasesDir, "a.use-case.ts", "hello".toList⟩,
    ⟨repoDir, "prisma-a.repository.ts", "hello".toList⟩], [], []⟩

/-- Two repository files where the first enumerated one is unreadable. -/
def fsAbort : FS :=
  ⟨[repoDir],
   [⟨repoDir, "prisma-a.repository.ts", "x".toList⟩,
    ⟨repoDir, "prisma-b.repository.ts", "y".toList⟩], [rPathA], []⟩

/-- Two repository files enumerated by the walker in non-lexicographic
order. -/
def fsOrd : FS :=
  ⟨[repoDir],
   [⟨repoDir, "prisma-b.repository.ts", "x".toList⟩,
    ⟨repoDir, "prisma-a.repository.ts", "y".toList⟩], [], []⟩

/-- An empty filesystem: neither configured root directory exists. -/
def fsEmpty : FS := ⟨[], [], [], []⟩

/-- A filesystem where the use-cases root exists but holds no matching
file. -/
def fsQuiet : FS := ⟨[useCasesDir], [], [], []⟩

/-- Content whose original text contains `PaymentMethod` (so the guard of
`fix_payment_info_create` is false on the original), which an earlier rule
deletes. -/
def guardInput : Str :=
  "import \x7b PaymentInfo \x7d\nbarber.isAvailableAt(PaymentMethod)".toList

/-- A content containing a `toDomain` assignment, and its image under one
run of the fix-repositories substitutions. -/
def idemInput : Str := "\n const a = XMapper.toDomain(r)".toList

/-- `fixRepoSubs idemInput`: the matched span is kept verbatim and an
unwrapping line is appended, so the rule's pattern still matches. -/
def idemOnce : Str :=
  "\n const a = XMapper.toDomain(r)\n\n if (const a = .isFailure) return null".toList

/-- A fix list whose only fix function raises. -/
def failingFixes : List (Str → Except String Str) :=
  [fun _ => .error "rule failed"]

/-- C1: the spec claims `apply(apply(C)) = apply(C)` for the full
substitution sequence and every content `C`, and that a second run leaves
every file unchanged.  The code violates this: rule 3 of
fix-repositories.py (lines 38-42) rewrites a `const x = YMapper.toDomain(...)`
assignment to itself plus an inserted guard line, so its own output still
matches the pattern and a second application inserts the guard line again
(rule 5, lines 52-56, re-matches similarly).  At the concrete content
`idemInput`, one application yields `idemOnce` and a second application
differs from the first. -/
theorem c1_repo_sequence_not_idempotent :
    fixRepoSubs idemInput = idemOnce ∧ fixRepoSubs idemOnce ≠ idemOnce := by
  constructor
  · decide
  · decide

/-- C8: within a run the fix functions of each script are applied to every
file in their fixed declared order, each receiving the cumulative output
of all earlier fix functions: folding the declared fix list equals the
nested composition in source order, for every content (so every fix
function is attempted regardless of what earlier ones matched). -/
theorem c8_fixes_in_declared_order_cumulative :
    (∀ c : Str, applyFixes usecasesFixes c = .ok (usecasesSubs c)) ∧
    (∀ c : Str, applyFixes phase2Fixes c = .ok (phase2Subs c)) :=
  ⟨fun _ => rfl, fun _ => rfl⟩

/-- C10: the `.complete(dto.notes)` substitution of
`fix_optional_string_args` replaces a literal by the identical literal, the
`requiredSkillsEvery` substitution of `fix_barber_specialties` replaces
every match by `m.group(0)` (the match itself), and
`fix_barber_schedule_iteration` returns its input; all three are identity
transformations on every content, so none can make a file count as
changed.  Consequently `fix_optional_string_args` reduces to its `.cancel`
substitution alone and `fix_barber_specialties` to its `.some`
substitution alone. -/
theorem c10_documentation_rules_are_identities :
    (∀ c : Str,
      msub (rs ".complete(dto.notes)")
        (fun _ _ => ".complete(dto.notes)".toList) c = c) ∧
    (∀ c : Str, msub requiredSkillsEveryPat matchItselfRep c = c) ∧
    (∀ c : Str, fix_barber_schedule_iteration c = c) ∧
    (∀ c : Str, fix_optional_string_args c =
      msub (rs ".cancel(dto.reason)") (fun _ _ => cancelReasonRep) c) ∧
    (∀ c : Str, fix_barber_specialties c =
      msub specialtiesSomePat
        (fun _ g => "barber.specialties.specialties.includes(".toList ++
          glook g 1 ++ ")".toList) c) := by
  have hcomp : ∀ c : Str,
      msub (rs ".complete(dto.notes)")
        (fun _ _ => ".complete(dto.notes)".toList) c = c :=
    fun c => msub_literal_self ".complete(dto.notes)".toList c
  have hevery : ∀ c : Str, msub requiredSkillsEveryPat matchItselfRep c = c :=
    fun c => msub_self requiredSkillsEveryPat matchItselfRep
      (fun _ _ _ => rfl) c
  refine ⟨hcomp, hevery, fun _ => rfl, fun c => ?_, fun c => ?_⟩
  · show msub (rs ".complete(dto.notes)") _
      (msub (rs ".cancel(dto.reason)") _ c) = _
    exact hcomp _
  · show msub requiredSkillsEveryPat matchItselfRep
      (msub specialtiesSomePat _ c) = _
    exact hevery _

/-- C2 counterexample: the claim says any per-file exception is caught and
a single failing file never aborts the whole run, citing
`fix_repository_file` among its sources.  fix-repositories.py has no
`try/except`: in a tree with two matching repository files where the first
enumerated file is unreadable, the run aborts with the uncaught read
exception and the second file is never processed. -/
theorem c2_counterexample_repo_abort :
    (repoGlob fsAbort).length = 2 ∧
    fixRepositoriesMain fsAbort = .error ("read error: " ++ rPathA) :=
  ⟨rfl, rfl⟩

/-- C2 (amended): in fix-usecases.py and fix-usecases-phase2.py every
exception raised while reading, transforming or writing a file is caught
by `process_file`, recorded for that file, and the loop gives every
enumerated file an outcome; fix-repositories.py catches nothing, so there
a failing file aborts the run (see the counterexample). -/
theorem c2_usecases_catch_and_continue :
    (∀ (fixes : List (Str → Except String Str)) (fs : FS) (p : String)
       (e : String), processFileBody fixes fs p = .error e →
       processFileWith fixes fs p = ⟨fs, false, some e, 0⟩) ∧
    (∀ (fixes : List (Str → Except String Str)) (fs : FS) (ps : List String),
       (runFiles fixes fs ps).2.2.map (fun t => t.1) = ps) ∧
    (∀ fs : FS,
       (usecasesMain fs).2.results.map (fun t => t.1) = sortedPaths (ucGlob fs) ∧
       (phase2Main fs).2.results.map (fun t => t.1) = sortedPaths (ucGlob fs)) := by
  refine ⟨fun fixes fs p e h => ?_, runFiles_map_fst, fun fs => ⟨?_, ?_⟩⟩
  · simp [processFileWith, h]
  · have h : (usecasesMain fs).2.results =
        (runFiles usecasesFixes fs (sortedPaths (ucGlob fs))).2.2 := rfl
    rw [h, runFiles_map_fst]
  · have h : (phase2Main fs).2.results =
        (runFiles phase2Fixes fs (sortedPaths (ucGlob fs))).2.2 := rfl
    rw [h, runFiles_map_fst]

/-- C2 witness: at the concrete tree whose only use-case file is
unreadable, fix-usecases.py records the read error for that file and
returns `False` instead of propagating. -/
theorem c2_witness :
    processFileWith usecasesFixes fsErrU uPath =
      ⟨fsErrU, false, some ("read error: " ++ uPath), 0⟩ :=
  c2_usecases_catch_and_continue.1 usecasesFixes fsErrU uPath
    ("read error: " ++ uPath) rfl

/-- C3 counterexample: the claim says a missing root makes the run fail
fast with an error.  fix-usecases.py and fix-usecases-phase2.py never
check the root: over the empty filesystem (no root directory exists) both
complete normally with a success-style report of zero files — bit-for-bit
the same report as a successful run over an existing root with no matching
files — instead of failing with an error. -/
theorem c3_counterexample_silent_success :
    usecasesMain fsEmpty = (fsEmpty, ⟨0, 0, []⟩) ∧
    (usecasesMain fsEmpty).2 = (usecasesMain fsQuiet).2 ∧
    phase2Main fsEmpty = (fsEmpty, ⟨0, 0, []⟩) := by
  refine ⟨by decide, by decide, by decide⟩

/-- C3 (amended): only fix-repositories.py checks its root: when the root
directory does not exist it prints an error and returns before any file is
read or written, leaving the filesystem untouched.  fix-usecases.py and
fix-usecases-phase2.py perform no check: with no directory under the
use-cases root they also touch nothing, but complete normally (reporting
zero files scanned) rather than failing with an error. -/
theorem c3_root_check_only_in_repositories :
    (∀ fs : FS, repoDir ∉ fs.dirs →
      fixRepositoriesMain fs = .ok (fs, .missingRoot)) ∧
    (∀ fs : FS, (∀ e ∈ fs.files, e.dir ∈ fs.dirs) →
      (∀ d ∈ fs.dirs, dirUnder useCasesDir d = false) →
      usecasesMain fs = (fs, ⟨0, 0, []⟩) ∧ phase2Main fs = (fs, ⟨0, 0, []⟩)) := by
  constructor
  · intro fs h
    simp [fixRepositoriesMain, h]
  · intro fs hcons hclosed
    have hfil : fs.files.filter
        (fun e => dirUnder useCasesDir e.dir && ucGlobMatch e.name) = [] := by
      rw [List.filter_eq_nil_iff]
      intro e he
      simp [hclosed e.dir (hcons e he)]
    have hglob : ucGlob fs = [] := by
      simp [ucGlob, hfil]
    constructor <;> simp [usecasesMain, phase2Main, hglob, sortedPaths, runFiles]

/-- C3 witness: over the empty filesystem, fix-repositories.py aborts with
its missing-root error before touching anything, and fix-usecases.py
completes with an empty report. -/
theorem c3_witness :
    fixRepositoriesMain fsEmpty = .ok (fsEmpty, .missingRoot) ∧
    usecasesMain fsEmpty = (fsEmpty, ⟨0, 0, []⟩) :=
  ⟨c3_root_check_only_in_repositories.1 fsEmpty (by simp [fsEmpty]),
   (c3_root_check_only_in_repositories.2 fsEmpty (by simp [fsEmpty])
     (by simp [fsEmpty])).1⟩

/-- C4 counterexample: the claim says a guard is evaluated against the
original file content as read from disk, and that a guarded rule is a
no-op when its guard is false on the original.  At `guardInput` the
original content contains `PaymentMethod`, so the guard test
`PaymentMethod not in content` is false on the original; yet the earlier
rule `fix_barber_is_available_at` deletes the only `PaymentMethod`
occurrence, the guard is re-evaluated true on the rewritten content, and
the guarded rewrite fires: the phase2 output contains the rewritten
PaymentInfo/PaymentMethod line. -/
theorem c4_counterexample_guard_bypassed :
    hasSub "PaymentMethod".toList guardInput = true ∧
    hasSub paymentImportNew guardInput = false ∧
    hasSub paymentImportNew (phase2Subs guardInput) = true := by
  exact ⟨by decide, by decide, by decide⟩

/-- C4 (amended): the guard of `fix_payment_info_create` is evaluated
against the current, partially-rewritten content at the moment the
function runs (after the earlier phase2 fixes and after its own
`PaymentInfo.create` substitution), not against the original file content;
when the guard is false on that current content the import rewrite is
skipped. -/
theorem c4_guard_checked_on_current_content :
    ∀ c : Str, hasSub "PaymentMethod".toList (paymentCreateSub c) = true →
      fix_payment_info_create c = paymentCreateSub c := by
  intro c h
  have hcond : (hasSub "PaymentInfo".toList (paymentCreateSub c) &&
      !hasSub "PaymentMethod".toList (paymentCreateSub c)) = false := by
    rw [h]; simp
  simp only [fix_payment_info_create, hcond, Bool.false_eq_true, if_false]

/-- C4 witness: on a content that still contains `PaymentMethod` when the
guard runs, the import rewrite is skipped. -/
theorem c4_witness :
    fix_payment_info_create "PaymentInfo PaymentMethod".toList =
      paymentCreateSub "PaymentInfo PaymentMethod".toList :=
  c4_guard_checked_on_current_content "PaymentInfo PaymentMethod".toList
    (by decide)

/-- C5: each file is written at most once per run, a write happens only
when the read and every fix function completed without raising and the
content changed, and when any fix function raises the per-file state
(including every file's on-disk content) is returned exactly as it was
before the file was processed.  This is the shared `process_file` shape of
fix-usecases.py and fix-usecases-phase2.py, whose fix lists
(`usecasesFixes`, `phase2Fixes`) instantiate `fixes`. -/
theorem c5_single_write_after_all_fixes :
    ∀ (fixes : List (Str → Except String Str)) (fs : FS) (p : String),
      (processFileWith fixes fs p).writes ≤ 1 ∧
      (∀ (c : Str) (e : String), readFile fs p = .ok c →
        applyFixes fixes c = .error e →
        processFileWith fixes fs p = ⟨fs, false, some e, 0⟩) ∧
      ((processFileWith fixes fs p).writes = 1 →
        ∃ c c2, readFile fs p = .ok c ∧ applyFixes fixes c = .ok c2 ∧
          c2 ≠ c ∧ (processFileWith fixes fs p).err = none) :=
  fun fixes fs p =>
    ⟨processFileWith_writes_le_one fixes fs p,
     fun c e hr hf => processFileWith_fix_error fixes fs p c e hr hf,
     fun h => processFileWith_writes_one fixes fs p h⟩

/-- C5 witness: with a fix list whose only fix function raises, over a
readable pattern-free file, the error is recorded, nothing is written and
the filesystem is returned unchanged. -/
theorem c5_witness :
    processFileWith failingFixes fsNoop uPath =
      ⟨fsNoop, false, some "rule failed", 0⟩ :=
  (c5_single_write_after_all_fixes failingFixes fsNoop uPath).2.1
    "hello".toList "rule failed" rfl rfl

/-- C6: a file whose fully transformed content is identical to its
original content is never written and is reported unchanged (return value
`False` in fix-usecases.py / fix-usecases-phase2.py and in
`fix_repository_file`); the filesystem is returned untouched. -/
theorem c6_unchanged_file_not_written :
    (∀ (fixes : List (Str → Except String Str)) (fs : FS) (p : String)
       (c : Str), readFile fs p = .ok c → applyFixes fixes c = .ok c →
       processFileWith fixes fs p = ⟨fs, false, none, 0⟩) ∧
    (∀ (fs : FS) (p : String) (c : Str), readFile fs p = .ok c →
       fixRepoSubs c = c → fix_repository_file fs p = .ok (fs, false)) := by
  constructor
  · exact fun fixes fs p c hr hf => processFileWith_unchanged fixes fs p c hr hf
  · intro fs p c hr hc
    simp [fix_repository_file, hr, hc]

/-- C6 witness: the fixture file whose content `hello` contains none of
the configured patterns is left byte-identical and reported unchanged by
both runners. -/
theorem c6_witness :
    processFileWith usecasesFixes fsNoop uPath = ⟨fsNoop, false, none, 0⟩ ∧
    fix_repository_file fsNoop rPathA = .ok (fsNoop, false) :=
  ⟨c6_unchanged_file_not_written.1 usecasesFixes fsNoop uPath
     "hello".toList rfl rfl,
   c6_unchanged_file_not_written.2 fsNoop rPathA "hello".toList rfl rfl⟩

/-- C7 counterexample: the claim says the runner processes the enumerated
files in stable lexicographic order by path, citing fix-repositories.py's
`main` among its sources.  fix-repositories.py never sorts its glob: when
the walker enumerates `prisma-b` before `prisma-a`, the files are visited
in that order, which is not lexicographic. -/
theorem c7_counterexample_repo_order_not_sorted :
    fixRepositoriesMain fsOrd =
      .ok (fsOrd, .completed 2 0 [rPathB, rPathA]) ∧
    ¬ pathLe rPathB rPathA := by
  constructor
  · rfl
  · decide

/-- C7 (amended): fix-usecases.py and fix-usecases-phase2.py process the
enumerated files in lexicographically sorted order by path (`sorted(files)`)
— the visit order is a sorted permutation of the glob, and hence
deterministic for identical inputs; fix-repositories.py processes the
walker's enumeration order unsorted. -/
theorem c7_usecases_sorted_processing :
    ∀ fs : FS,
      ((usecasesMain fs).2.results.map (fun t => t.1)).Sorted pathLe ∧
      ((usecasesMain fs).2.results.map (fun t => t.1)).Perm (ucGlob fs) ∧
      ((phase2Main fs).2.results.map (fun t => t.1)).Sorted pathLe ∧
      ((phase2Main fs).2.results.map (fun t => t.1)).Perm (ucGlob fs) := by
  intro fs
  have h1 : (usecasesMain fs).2.results =
      (runFiles usecasesFixes fs (sortedPaths (ucGlob fs))).2.2 := rfl
  have h2 : (phase2Main fs).2.results =
      (runFiles phase2Fixes fs (sortedPaths (ucGlob fs))).2.2 := rfl
  rw [h1, h2, runFiles_map_fst, runFiles_map_fst]
  exact ⟨sortedPaths_sorted _,
    (sortedPaths_perm _).trans (List.Perm.refl _),
    sortedPaths_sorted _,
    (sortedPaths_perm _).trans (List.Perm.refl _)⟩

/-- C9 counterexample: the claim says the end-of-run summary reports at
least the counts scanned/changed/unchanged/errored with errored files
distinguished from unchanged ones.  The scripts' summaries report only
scanned and corrected: a run whose single file errored and a run whose
single file was unchanged produce identical summary counts, the error
appearing only in the per-file progress output. -/
theorem c9_counterexample_error_indistinguishable :
    (usecasesMain fsErrU).2.scanned = (usecasesMain fsNoop).2.scanned ∧
    (usecasesMain fsErrU).2.corrected = (usecasesMain fsNoop).2.corrected ∧
    (usecasesMain fsErrU).2.results.map (fun t => t.2.2) =
      [some ("read error: " ++ uPath)] ∧
    (usecasesMain fsNoop).2.results.map (fun t => t.2.2) = [none] := by
  exact ⟨by decide, by decide, by decide, by decide⟩

/-- C9 (amended): the end-of-run summary reports exactly the number of
files scanned and the number of files changed (those whose `process_file`
returned `True`); unchanged and errored files are not separately counted
and are indistinguishable in the summary. -/
theorem c9_summary_reports_scanned_and_changed_only :
    ∀ fs : FS,
      (usecasesMain fs).2.scanned = (ucGlob fs).length ∧
      (usecasesMain fs).2.corrected =
        ((usecasesMain fs).2.results.filter (fun t => t.2.1)).length ∧
      (phase2Main fs).2.scanned = (ucGlob fs).length ∧
      (phase2Main fs).2.corrected =
        ((phase2Main fs).2.results.filter (fun t => t.2.1)).length := by
  intro fs
  exact ⟨rfl, runFiles_corrected usecasesFixes fs (sortedPaths (ucGlob fs)),
    rfl, runFiles_corrected phase2Fixes fs (sortedPaths (ucGlob fs))⟩
